import Mathlib

/-!
Shallow embedding of `src/tape/tasks/fluorescence_task.py` (a protein
fluorescence regression task): the `FluorescenceDataset` data pipeline
(sequence alignment, MSA context block, collation, embedding cache) and the
mask stage of `FluorescencePredictor.forward`.

External collaborators of the repository (the Biopython pairwise aligner, the
tokenizer, the hhfilter diversity filter, `pad_sequences` and `seqlen_mask`
from `tape.utils`) are not part of `src/`; they are either abstracted as
function parameters with their documented contract as a hypothesis, or
modelled from the spec (marked `Modelled from the spec:`).
-/

namespace TapeFluorescence

/-- Modelled from the spec: the tokenizer (`tape.tokenizers.TAPETokenizer`,
not under `src/`). Spec §6: `encode(string) -> integer array`; the end-to-end
scenario of §8 (query length 230 → token shape `(230,)`) fixes the encoding as
one token per character. -/
def tokenizerEncode (s : String) : List Int :=
  s.data.map (fun c => (c.toNat : Int))

/-- Modelled from the spec: `hhfilter_sequences` (`tape.utils`, not under
`src/`). Spec §4.2: a diversity-filtering procedure that is asked for `diff`
sequences out of the MSA and returns (up to) that many, paired with their
identifiers. -/
def hhfilter_sequences (msa : List String) (diff : Nat) : List (Nat × String) :=
  msa.enum.take diff

/-- The per-instance MSA state built by `FluorescenceDataset.__init__`
(lines 48-66): the reference sequence (first row of the parsed MSA) and the
stacked token block of the filtered context sequences. -/
structure MsaBlock where
  reference : String
  msa : List (List Int)
deriving DecidableEq

/-- Embeds `FluorescenceDataset.__init__` lines 48-66 (the `use_msa` branch):
`reference = msa[0]`; `seqlen = len(tokenizer.encode(data[0]["primary"]))`;
`max_num_sequences = max_tokens_per_msa // seqlen`;
`sequences_from_msa = max_num_sequences - 1`;
`sequences = hhfilter_sequences(msa, diff=sequences_from_msa)`;
the block stacks the encodings of `sequences[:sequences_from_msa]`.
Subtraction is `Nat` subtraction; the region where it diverges from Python
(`max_num_sequences = 0`, a budget misconfiguration the spec calls a fatal
configuration error) is excluded by hypothesis in the theorems. -/
def msaInit (msaSeqs : List String) (data0primary : String)
    (maxTokensPerMsa : Nat) : MsaBlock :=
  let reference := msaSeqs.headD ""
  let seqlen := (tokenizerEncode data0primary).length
  let maxNumSequences := maxTokensPerMsa / seqlen
  let sequencesFromMsa := maxNumSequences - 1
  let sequences := hhfilter_sequences msaSeqs sequencesFromMsa
  let tokens := (sequences.take sequencesFromMsa).map (fun p => tokenizerEncode p.2)
  ⟨reference, tokens⟩

/-- Embeds `FluorescenceDataset.maybe_align_sequence` (lines 73-77). The
Biopython `PairwiseAligner` call
`str(self.aligner.align(self.reference, sequence)[0]).split("\n")[2]`
(global mode, BLOSUM62, `target_open_gap_score = -inf`, i.e. the reference
row admits no gaps) is an external collaborator, abstracted as the parameter
`aligner`; its documented contract (the aligned query row has exactly the
reference's length) enters the theorems as a hypothesis. -/
def maybe_align_sequence (useMsa : Bool) (reference : String)
    (aligner : String → String → String) (sequence : String) : String :=
  if useMsa = false ∨ sequence.length = reference.length then
    sequence
  else
    aligner reference sequence

/-- C5: for every query sequence whose length equals the reference's length,
and likewise whenever MSA mode is off, `maybe_align_sequence` returns its
input string unchanged. -/
theorem maybe_align_sequence_identity (useMsa : Bool) (reference : String)
    (aligner : String → String → String) (sequence : String)
    (h : sequence.length = reference.length ∨ useMsa = false) :
    maybe_align_sequence useMsa reference aligner sequence = sequence := by
  unfold maybe_align_sequence
  rcases h with h | h <;> simp [h]

/-- Witness for C5 at a concrete input: MSA on, query of the reference's
length is returned unchanged. -/
theorem maybe_align_sequence_identity_witness :
    maybe_align_sequence true "AB" (fun r _ => r) "CD" = "CD" :=
  maybe_align_sequence_identity true "AB" (fun r _ => r) "CD"
    (Or.inl (by decide))

/-- C1: with MSA mode enabled, for every query whose length differs from the
reference's length, `maybe_align_sequence` returns a string of exactly the
reference's length, given the aligner's contract (spec §4.1: global alignment
with the reference never truncated and never gapped, so the aligned query row
has the reference's length). -/
theorem maybe_align_sequence_length (useMsa : Bool) (reference : String)
    (aligner : String → String → String) (sequence : String)
    (hcontract : ∀ r q : String, (aligner r q).length = r.length)
    (hmsa : useMsa = true)
    (hne : sequence.length ≠ reference.length) :
    (maybe_align_sequence useMsa reference aligner sequence).length
      = reference.length := by
  unfold maybe_align_sequence
  simp [hmsa, hne, hcontract]

/-- Witness for C1 at a concrete input: a length-1 query against a length-2
reference, with a concrete aligner satisfying the contract. -/
theorem maybe_align_sequence_length_witness :
    (maybe_align_sequence true "AB" (fun r _ => r) "A").length = "AB".length :=
  maybe_align_sequence_length true "AB" (fun r _ => r) "A"
    (fun _ _ => rfl) rfl (by decide)

theorem tokenizerEncode_length (s : String) :
    (tokenizerEncode s).length = s.length := by
  unfold tokenizerEncode
  rw [List.length_map]
  rfl

theorem snd_mem_of_mem_enumFrom {α : Type} :
    ∀ (l : List α) (n : Nat) (p : Nat × α), p ∈ l.enumFrom n → p.2 ∈ l := by
  intro l
  induction l with
  | nil => intro n p h; simp [List.enumFrom] at h
  | cons a t ih =>
      intro n p h
      simp only [List.enumFrom, List.mem_cons] at h
      rcases h with h | h
      · subst h; simp
      · exact List.mem_cons_of_mem _ (ih (n + 1) p h)

theorem headD_mem {α : Type} (l : List α) (d : α) (h : l ≠ []) :
    l.headD d ∈ l := by
  cases l with
  | nil => exact absurd rfl h
  | cons a t => simp

theorem msaInit_msa_length (msaSeqs : List String) (d0 : String) (b : Nat) :
    (msaInit msaSeqs d0 b).msa.length
      = min (b / d0.length - 1) msaSeqs.length := by
  unfold msaInit hhfilter_sequences
  simp only [List.length_map, List.length_take, List.enum_length, tokenizerEncode_length]
  omega

/-- The MSA state that `__init__` builds when the first dataset example is
shorter than the reference: an MSA of 200 rows of length 256, a first dataset
example of length 128, and the default token budget `2 ^ 14 = 16384`. -/
def c3Block : MsaBlock :=
  msaInit (List.replicate 200 (String.mk (List.replicate 256 'A')))
    (String.mk (List.replicate 128 'A')) 16384

/-- Counterexample to C3 as stated: with budget 16384 and reference token
length 256, the claim bounds the block by `16384 / 256 - 1 = 63` rows, but the
code divides the budget by the token length of `data[0]["primary"]` (here
128), so the block holds 127 rows. -/
theorem c3Block_violates_reference_bound :
    (tokenizerEncode c3Block.reference).length = 256 ∧
    c3Block.msa.length = 127 ∧
    ¬ c3Block.msa.length ≤ 16384 / 256 - 1 := by
  have href : c3Block.reference = String.mk (List.replicate 256 'A') := rfl
  have hcount : c3Block.msa.length = 127 := by
    show (msaInit _ _ _).msa.length = 127
    rw [msaInit_msa_length]
    have h1 : (String.mk (List.replicate 128 'A')).length = 128 := rfl
    have h2 : (List.replicate 200 (String.mk (List.replicate 256 'A'))).length = 200 :=
      List.length_replicate 200 _
    rw [h1, h2]
    decide
  refine ⟨?_, hcount, ?_⟩
  · rw [href, tokenizerEncode_length]
    show (List.replicate 256 'A').length = 256
    rw [List.length_replicate]
  · rw [hcount]; decide

/-- C3 (amended): the stored MSA context block contains at most
`floor(max_tokens_per_msa / t0) - 1` context sequences, where `t0` is the
token length of the first dataset example (`data[0]["primary"]`), not of the
reference; each row is an encoded sequence of the reference's token length
(assuming the parsed MSA is rectangular, i.e. all rows share one length). -/
theorem msaInit_block_bound (msaSeqs : List String) (d0 : String) (b L : Nat)
    (hne : msaSeqs ≠ [])
    (hlen : ∀ s ∈ msaSeqs, s.length = L)
    (hbudget : 1 ≤ b / (tokenizerEncode d0).length) :
    (msaInit msaSeqs d0 b).msa.length ≤ b / (tokenizerEncode d0).length - 1 ∧
    ∀ row ∈ (msaInit msaSeqs d0 b).msa,
      row.length = (tokenizerEncode (msaInit msaSeqs d0 b).reference).length := by
  constructor
  · rw [msaInit_msa_length, tokenizerEncode_length]
    exact min_le_left _ _
  · intro row hrow
    have hrefmem : (msaInit msaSeqs d0 b).reference ∈ msaSeqs := by
      show msaSeqs.headD "" ∈ msaSeqs
      exact headD_mem msaSeqs "" hne
    have hrefL : (msaInit msaSeqs d0 b).reference.length = L :=
      hlen _ hrefmem
    simp only [msaInit, hhfilter_sequences] at hrow
    rcases List.mem_map.mp hrow with ⟨p, hp, hrowEq⟩
    have hpmem : p ∈ msaSeqs.enum := List.mem_of_mem_take (List.mem_of_mem_take hp)
    have hsnd : p.2 ∈ msaSeqs := snd_mem_of_mem_enumFrom msaSeqs 0 p hpmem
    rw [← hrowEq, tokenizerEncode_length, tokenizerEncode_length, hlen _ hsnd, hrefL]

/-- Witness for the amended C3 at a concrete input: a two-row MSA of length-2
sequences, a length-2 first example, budget 4. -/
theorem msaInit_block_bound_witness :
    (msaInit ["AB", "CD"] "AB" 4).msa.length
        ≤ 4 / (tokenizerEncode "AB").length - 1 ∧
    ∀ row ∈ (msaInit ["AB", "CD"] "AB" 4).msa,
      row.length = (tokenizerEncode (msaInit ["AB", "CD"] "AB" 4).reference).length :=
  msaInit_block_bound ["AB", "CD"] "AB" 4 2 (by decide) (by decide) (by decide)

/-- The maximum length over a batch of arrays (the batch's max unpadded
width). -/
def batchMaxLen {α : Type} (seqs : List (List α)) : Nat :=
  (seqs.map List.length).foldr max 0

/-- Modelled from the spec: `pad_sequences` from `tape.utils` (not under
`src/`). Spec §4.4: right-pad every array of the batch to the batch's max
length with the given padding value. -/
def pad_sequences {α : Type} (seqs : List (List α)) (padVal : α) : List (List α) :=
  seqs.map (fun s => s ++ List.replicate (batchMaxLen seqs - s.length) padVal)

/-- One per-example tensor bundle in the 1-D (non-MSA) token layout that the
collation claim describes: `src_tokens`, the scalar `log_fluorescence`
target, and the cached `features` array. -/
structure CollateItem where
  srcTokens : List Int
  logFluorescence : Rat
  features : List Rat
deriving DecidableEq

/-- The collated batch: `net_input.src_tokens`, `net_input.src_lengths`,
the `(batch, 1)` target column, and `net_input.features` when cached
embeddings are returned. -/
structure Batch where
  srcTokens : List (List Int)
  srcLengths : List Nat
  logFluorescence : List (List Rat)
  features : Option (List (List Rat))
deriving DecidableEq

/-- Embeds `FluorescenceDataset.collate_fn` (lines 101-122): pad token
arrays with the tokenizer's padding index, record each example's unpadded
last-dimension size as `src_lengths`, stack targets and unsqueeze to a
`(batch, 1)` column, and pad feature arrays with zeros when
`return_cached_embeddings` is set. -/
def collate_fn (padIdx : Int) (returnCachedEmbeddings : Bool)
    (batch : List CollateItem) : Batch :=
  ⟨pad_sequences (batch.map CollateItem.srcTokens) padIdx,
   batch.map (fun el => el.srcTokens.length),
   (batch.map (fun item => item.logFluorescence)).map (fun v => [v]),
   if returnCachedEmbeddings then
     some (pad_sequences (batch.map CollateItem.features) (0 : Rat))
   else none⟩

theorem le_foldr_max {l : List Nat} {x : Nat} (h : x ∈ l) :
    x ≤ l.foldr max 0 := by
  induction l with
  | nil => cases h
  | cons a t ih =>
      rcases List.mem_cons.mp h with h | h
      · subst h; exact le_max_left _ _
      · exact le_trans (ih h) (le_max_right _ _)

theorem length_le_batchMaxLen {α : Type} {seqs : List (List α)} {s : List α}
    (h : s ∈ seqs) : s.length ≤ batchMaxLen seqs :=
  le_foldr_max (List.mem_map_of_mem List.length h)

theorem pad_sequences_length {α : Type} (seqs : List (List α)) (p : α) :
    (pad_sequences seqs p).length = seqs.length := by
  simp [pad_sequences]

theorem pad_sequences_row_length {α : Type} (seqs : List (List α)) (p : α) :
    ∀ row ∈ pad_sequences seqs p, row.length = batchMaxLen seqs := by
  intro row hrow
  rcases List.mem_map.mp hrow with ⟨s, hs, hrow2⟩
  have hle := length_le_batchMaxLen hs
  rw [← hrow2]
  simp only [List.length_append, List.length_replicate]
  omega

theorem getD_map_of_lt {α β : Type} (f : α → β) (l : List α) (i : Nat)
    (hi : i < l.length) (d : β) (d0 : α) :
    (l.map f).getD i d = f (l.getD i d0) := by
  have h2 : i < (l.map f).length := by simpa
  rw [List.getD_eq_getElem _ _ h2, List.getD_eq_getElem _ _ hi]
  exact List.getElem_map f

theorem getD_mem_of_lt {α : Type} (l : List α) (i : Nat) (d : α)
    (hi : i < l.length) : l.getD i d ∈ l := by
  rw [List.getD_eq_getElem _ _ hi]
  exact List.getElem_mem hi

theorem getD_append_replicate {α : Type} (s : List α) (k : Nat) (p : α)
    (j : Nat) (d : α) (h1 : s.length ≤ j) (h2 : j < s.length + k) :
    (s ++ List.replicate k p).getD j d = p := by
  have hlen : j < (s ++ List.replicate k p).length := by
    simp only [List.length_append, List.length_replicate]
    omega
  rw [List.getD_eq_getElem _ _ hlen, List.getElem_append_right h1]
  exact List.getElem_replicate ..

theorem pad_sequences_get {α : Type} (seqs : List (List α)) (p : α) (i : Nat)
    (hi : i < seqs.length) :
    (pad_sequences seqs p).getD i []
      = seqs.getD i [] ++ List.replicate (batchMaxLen seqs - (seqs.getD i []).length) p := by
  have h2 : i < (pad_sequences seqs p).length := by
    rw [pad_sequences_length]; exact hi
  rw [List.getD_eq_getElem _ _ h2, List.getD_eq_getElem _ _ hi]
  exact List.getElem_map _

theorem pad_sequences_pad_entry {α : Type} (seqs : List (List α)) (p d : α)
    (i j : Nat) (hi : i < seqs.length)
    (hj1 : (seqs.getD i []).length ≤ j) (hj2 : j < batchMaxLen seqs) :
    ((pad_sequences seqs p).getD i []).getD j d = p := by
  rw [pad_sequences_get seqs p i hi]
  have hW := length_le_batchMaxLen (getD_mem_of_lt seqs i [] hi)
  exact getD_append_replicate _ _ _ _ _ hj1 (by omega)

/-- C2: for every non-empty batch, `collate_fn` produces a token tensor whose
width is the batch's max unpadded token width, with every row equal to the
pad index at all positions beyond its true length; `src_lengths` recovers
each input's true unpadded width; targets form a `(batch, 1)` column; and
feature arrays, when present, are right-padded with zeros. -/
theorem collate_fn_spec (padIdx : Int) (returnCachedEmbeddings : Bool)
    (batch : List CollateItem) (hne : batch ≠ []) :
    (∀ row ∈ (collate_fn padIdx returnCachedEmbeddings batch).srcTokens,
      row.length = batchMaxLen (batch.map CollateItem.srcTokens)) ∧
    (∀ i, i < batch.length → ∀ j,
      (batch.getD i ⟨[], 0, []⟩).srcTokens.length ≤ j →
      j < batchMaxLen (batch.map CollateItem.srcTokens) →
      ((collate_fn padIdx returnCachedEmbeddings batch).srcTokens.getD i []).getD
        j (padIdx + 1) = padIdx) ∧
    (∀ i, i < batch.length →
      (collate_fn padIdx returnCachedEmbeddings batch).srcLengths.getD i 0
        = (batch.getD i ⟨[], 0, []⟩).srcTokens.length) ∧
    ((collate_fn padIdx returnCachedEmbeddings batch).logFluorescence.length
        = batch.length ∧
      ∀ i, i < batch.length →
        (collate_fn padIdx returnCachedEmbeddings batch).logFluorescence.getD i []
          = [(batch.getD i ⟨[], 0, []⟩).logFluorescence]) ∧
    (returnCachedEmbeddings = true →
      (collate_fn padIdx returnCachedEmbeddings batch).features
          = some (pad_sequences (batch.map CollateItem.features) 0) ∧
        ∀ i, i < batch.length → ∀ j,
          (batch.getD i ⟨[], 0, []⟩).features.length ≤ j →
          j < batchMaxLen (batch.map CollateItem.features) →
          ((pad_sequences (batch.map CollateItem.features) (0 : Rat)).getD i []).getD
            j 1 = 0) := by
  refine ⟨?_, ?_, ?_, ⟨?_, ?_⟩, ?_⟩
  · intro row hrow
    exact pad_sequences_row_length _ _ row hrow
  · intro i hi j hj1 hj2
    have hi2 : i < (batch.map CollateItem.srcTokens).length := by simpa
    have hmap : (batch.map CollateItem.srcTokens).getD i []
        = (batch.getD i ⟨[], 0, []⟩).srcTokens :=
      getD_map_of_lt CollateItem.srcTokens batch i hi [] ⟨[], 0, []⟩
    refine pad_sequences_pad_entry _ _ _ i j hi2 ?_ hj2
    rw [hmap]; exact hj1
  · intro i hi
    exact getD_map_of_lt (fun el => el.srcTokens.length) batch i hi 0 ⟨[], 0, []⟩
  · simp [collate_fn]
  · intro i hi
    show ((batch.map (fun item => item.logFluorescence)).map (fun v => [v])).getD i []
        = _
    have hi2 : i < (batch.map (fun item => item.logFluorescence)).length := by simpa
    rw [getD_map_of_lt (fun v => [v]) _ i hi2 [] 0,
      getD_map_of_lt (fun item => item.logFluorescence) batch i hi 0 ⟨[], 0, []⟩]
  · intro hr
    constructor
    · simp [collate_fn, hr]
    · intro i hi j hj1 hj2
      have hi2 : i < (batch.map CollateItem.features).length := by simpa
      have hmap : (batch.map CollateItem.features).getD i []
          = (batch.getD i ⟨[], 0, []⟩).features :=
        getD_map_of_lt CollateItem.features batch i hi [] ⟨[], 0, []⟩
      refine pad_sequences_pad_entry _ _ _ i j hi2 ?_ hj2
      rw [hmap]; exact hj1

/-- Witness for C2 at a concrete input: a batch of two examples with token
widths 2 and 3. -/
theorem collate_fn_spec_witness :
    (∀ row ∈ (collate_fn 9 true [⟨[1, 2], 1, [5]⟩, ⟨[3, 4, 5], 2, []⟩]).srcTokens,
      row.length = batchMaxLen
        ([⟨[1, 2], 1, [5]⟩, ⟨[3, 4, 5], 2, []⟩].map CollateItem.srcTokens)) ∧
    (∀ i, i < ([⟨[1, 2], 1, [5]⟩, ⟨[3, 4, 5], 2, []⟩] : List CollateItem).length → ∀ j,
      (([⟨[1, 2], 1, [5]⟩, ⟨[3, 4, 5], 2, []⟩] : List CollateItem).getD i
        ⟨[], 0, []⟩).srcTokens.length ≤ j →
      j < batchMaxLen
        (([⟨[1, 2], 1, [5]⟩, ⟨[3, 4, 5], 2, []⟩] : List CollateItem).map CollateItem.srcTokens) →
      ((collate_fn 9 true [⟨[1, 2], 1, [5]⟩, ⟨[3, 4, 5], 2, []⟩]).srcTokens.getD i []).getD
        j (9 + 1) = 9) ∧
    (∀ i, i < ([⟨[1, 2], 1, [5]⟩, ⟨[3, 4, 5], 2, []⟩] : List CollateItem).length →
      (collate_fn 9 true [⟨[1, 2], 1, [5]⟩, ⟨[3, 4, 5], 2, []⟩]).srcLengths.getD i 0
        = (([⟨[1, 2], 1, [5]⟩, ⟨[3, 4, 5], 2, []⟩] : List CollateItem).getD i
            ⟨[], 0, []⟩).srcTokens.length) ∧
    ((collate_fn 9 true [⟨[1, 2], 1, [5]⟩, ⟨[3, 4, 5], 2, []⟩]).logFluorescence.length
        = ([⟨[1, 2], 1, [5]⟩, ⟨[3, 4, 5], 2, []⟩] : List CollateItem).length ∧
      ∀ i, i < ([⟨[1, 2], 1, [5]⟩, ⟨[3, 4, 5], 2, []⟩] : List CollateItem).length →
        (collate_fn 9 true [⟨[1, 2], 1, [5]⟩, ⟨[3, 4, 5], 2, []⟩]).logFluorescence.getD i []
          = [(([⟨[1, 2], 1, [5]⟩, ⟨[3, 4, 5], 2, []⟩] : List CollateItem).getD i
              ⟨[], 0, []⟩).logFluorescence]) ∧
    (true = true →
      (collate_fn 9 true [⟨[1, 2], 1, [5]⟩, ⟨[3, 4, 5], 2, []⟩]).features
          = some (pad_sequences
              (([⟨[1, 2], 1, [5]⟩, ⟨[3, 4, 5], 2, []⟩] : List CollateItem).map
                CollateItem.features) 0) ∧
        ∀ i, i < ([⟨[1, 2], 1, [5]⟩, ⟨[3, 4, 5], 2, []⟩] : List CollateItem).length → ∀ j,
          (([⟨[1, 2], 1, [5]⟩, ⟨[3, 4, 5], 2, []⟩] : List CollateItem).getD i
            ⟨[], 0, []⟩).features.length ≤ j →
          j < batchMaxLen
            (([⟨[1, 2], 1, [5]⟩, ⟨[3, 4, 5], 2, []⟩] : List CollateItem).map
              CollateItem.features) →
          ((pad_sequences
              (([⟨[1, 2], 1, [5]⟩, ⟨[3, 4, 5], 2, []⟩] : List CollateItem).map
                CollateItem.features) (0 : Rat)).getD i []).getD j 1 = 0) :=
  collate_fn_spec 9 true [⟨[1, 2], 1, [5]⟩, ⟨[3, 4, 5], 2, []⟩] (by decide)

/-- A filesystem path, as a list of components. -/
abbrev FsPath := List String

/-- A stored tensor: its payload and its autograd (gradient-tracking) flag. -/
structure STensor where
  data : List Rat
  requiresGrad : Bool
deriving DecidableEq

/-- The filesystem state visible to the embedded code: the directories that
exist and a map (association list, later entries shadowed by earlier ones)
from file paths to stored tensors. -/
structure FS where
  dirs : List FsPath
  files : List (FsPath × STensor)
deriving DecidableEq

def lookupFile (fs : FS) (p : FsPath) : Option STensor :=
  (fs.files.find? (fun e => e.1 == p)).map Prod.snd

/-- `FluorescenceDataset.task_name` (lines 79-81). -/
def task_name : String := "fluorescence"

/-- The dataset fields that determine a cache path: `data_path`, `split` and
the `use_msa` flag. -/
structure CacheConfig where
  dataPath : FsPath
  split : String
  useMsa : Bool
deriving DecidableEq

/-- `self.data_path / self.task_name / "embeddings"` (line 125). -/
def embeddingDir (c : CacheConfig) : FsPath :=
  c.dataPath ++ [task_name, "embeddings"]

/-- `f"{self.split}_{index}{'_msa' if self.use_msa else ''}.pt"` (line 127). -/
def embeddingFileName (c : CacheConfig) (index : Nat) : String :=
  c.split ++ "_" ++ toString index ++ (if c.useMsa then "_msa" else "") ++ ".pt"

/-- The cache path `embedding_dir / name` derived on line 128. -/
def cachePath (c : CacheConfig) (index : Nat) : FsPath :=
  embeddingDir c ++ [embeddingFileName c index]

/-- `embedding_dir.mkdir(exist_ok=True)` (line 126). -/
def mkdirExistOk (fs : FS) (d : FsPath) : FS :=
  if d ∈ fs.dirs then fs else ⟨d :: fs.dirs, fs.files⟩

/-- Embeds `FluorescenceDataset.cached_embedding_path` (lines 124-129): it
returns the derived cache path AND mutates the filesystem, creating the
embeddings directory (`mkdir(exist_ok=True)`) before returning. -/
def cached_embedding_path (c : CacheConfig) (index : Nat) (fs : FS) :
    FsPath × FS :=
  (cachePath c index, mkdirExistOk fs (embeddingDir c))

/-- Embeds `FluorescenceDataset.load_cached_embedding` (lines 131-135):
derive the path (with its mkdir side effect), `torch.load` it — raising when
the file is absent, with no fallback to live computation anywhere in the read
path — and return the tensor after `requires_grad_(False)`. -/
def load_cached_embedding (c : CacheConfig) (index : Nat) (fs : FS) :
    FS × Except String STensor :=
  match lookupFile (cached_embedding_path c index fs).2
      (cached_embedding_path c index fs).1 with
  | none => ((cached_embedding_path c index fs).2, Except.error "FileNotFoundError")
  | some t => ((cached_embedding_path c index fs).2, Except.ok ⟨t.data, false⟩)

/-- Embeds `FluorescenceDataset.make_embedding` (lines 137-148): derive the
path (mkdir side effect), and only when the file does not already exist,
run the model computation and `torch.save` the result to that path.  The
single-example batch construction, the device moves and
`base_model.extract_features(...)[0].cpu().clone()` are external to the
filesystem logic and abstracted as `extract` (which may read the filesystem
and may fail).  The returned flag records whether the model computation and
write happened. -/
def make_embedding (c : CacheConfig) (extract : Nat → FS → Except String STensor)
    (index : Nat) (fs : FS) : FS × Except String Bool :=
  if (lookupFile (cached_embedding_path c index fs).2
      (cached_embedding_path c index fs).1).isSome then
    ((cached_embedding_path c index fs).2, Except.ok false)
  else
    match extract index (cached_embedding_path c index fs).2 with
    | Except.error e => ((cached_embedding_path c index fs).2, Except.error e)
    | Except.ok embed =>
        (⟨(cached_embedding_path c index fs).2.dirs,
          ((cached_embedding_path c index fs).1, embed)
            :: (cached_embedding_path c index fs).2.files⟩,
         Except.ok true)

theorem mkdirExistOk_files (fs : FS) (d : FsPath) :
    (mkdirExistOk fs d).files = fs.files := by
  unfold mkdirExistOk
  split <;> rfl

theorem mkdirExistOk_mem (fs : FS) (d : FsPath) :
    d ∈ (mkdirExistOk fs d).dirs := by
  unfold mkdirExistOk
  split
  · assumption
  · exact List.mem_cons_self _ _

theorem mkdirExistOk_of_mem {fs : FS} {d : FsPath} (h : d ∈ fs.dirs) :
    mkdirExistOk fs d = fs := by
  unfold mkdirExistOk
  simp [h]

theorem lookupFile_mkdirExistOk (fs : FS) (d : FsPath) (p : FsPath) :
    lookupFile (mkdirExistOk fs d) p = lookupFile fs p := by
  unfold lookupFile
  rw [mkdirExistOk_files]

/-- C10: deriving a cache path is never a pure, filesystem-effect-free
computation: every call to `cached_embedding_path` — and therefore every
call to `load_cached_embedding` and `make_embedding` — leaves the embeddings
directory present, and actually changes the filesystem whenever the
directory was absent. -/
theorem cached_embedding_path_mkdir_effect (c : CacheConfig) (index : Nat)
    (fs : FS) (extract : Nat → FS → Except String STensor) :
    embeddingDir c ∈ (cached_embedding_path c index fs).2.dirs ∧
    (embeddingDir c ∉ fs.dirs → (cached_embedding_path c index fs).2 ≠ fs) ∧
    embeddingDir c ∈ (load_cached_embedding c index fs).1.dirs ∧
    embeddingDir c ∈ (make_embedding c extract index fs).1.dirs := by
  refine ⟨mkdirExistOk_mem fs _, ?_, ?_, ?_⟩
  · intro habs heq
    apply habs
    have hdirs : (cached_embedding_path c index fs).2.dirs = fs.dirs :=
      congrArg FS.dirs heq
    rw [← hdirs]
    exact mkdirExistOk_mem fs _
  · unfold load_cached_embedding
    cases h : lookupFile (cached_embedding_path c index fs).2
        (cached_embedding_path c index fs).1 <;>
      simp only [h] <;> exact mkdirExistOk_mem fs _
  · unfold make_embedding
    split
    · exact mkdirExistOk_mem fs _
    · cases h : extract index (cached_embedding_path c index fs).2 <;>
        simp only [h] <;> exact mkdirExistOk_mem fs _

/-- Witness for C10 at a concrete input: on an empty filesystem the call
creates `data/fluorescence/embeddings`. -/
theorem cached_embedding_path_mkdir_effect_witness :
    embeddingDir ⟨["data"], "train", false⟩
        ∈ (cached_embedding_path ⟨["data"], "train", false⟩ 0 ⟨[], []⟩).2.dirs ∧
    (embeddingDir ⟨["data"], "train", false⟩ ∉ (⟨[], []⟩ : FS).dirs →
      (cached_embedding_path ⟨["data"], "train", false⟩ 0 ⟨[], []⟩).2 ≠ ⟨[], []⟩) ∧
    embeddingDir ⟨["data"], "train", false⟩
        ∈ (load_cached_embedding ⟨["data"], "train", false⟩ 0 ⟨[], []⟩).1.dirs ∧
    embeddingDir ⟨["data"], "train", false⟩
        ∈ (make_embedding ⟨["data"], "train", false⟩
            (fun _ _ => Except.ok ⟨[1], true⟩) 0 ⟨[], []⟩).1.dirs :=
  cached_embedding_path_mkdir_effect ⟨["data"], "train", false⟩ 0 ⟨[], []⟩
    (fun _ _ => Except.ok ⟨[1], true⟩)

/-- C7: `load_cached_embedding` raises when the cached file is absent (the
read path holds no fallback to live computation — the result is determined
by the filesystem alone), and otherwise returns the stored tensor with
gradient tracking disabled. -/
theorem load_cached_embedding_spec (c : CacheConfig) (index : Nat) (fs : FS) :
    (lookupFile fs (cachePath c index) = none →
      (load_cached_embedding c index fs).2 = Except.error "FileNotFoundError") ∧
    (∀ t, lookupFile fs (cachePath c index) = some t →
      (load_cached_embedding c index fs).2 = Except.ok ⟨t.data, false⟩) ∧
    ∀ u, (load_cached_embedding c index fs).2 = Except.ok u →
      u.requiresGrad = false := by
  have hlk : lookupFile (cached_embedding_path c index fs).2
      (cached_embedding_path c index fs).1 = lookupFile fs (cachePath c index) :=
    lookupFile_mkdirExistOk fs (embeddingDir c) (cachePath c index)
  refine ⟨?_, ?_, ?_⟩
  · intro hnone
    unfold load_cached_embedding
    rw [hlk, hnone]
  · intro t ht
    unfold load_cached_embedding
    rw [hlk, ht]
  · intro u hu
    unfold load_cached_embedding at hu
    rw [hlk] at hu
    cases h : lookupFile fs (cachePath c index) <;> rw [h] at hu
    · exact absurd hu (by simp)
    · simp only [Except.ok.injEq] at hu
      rw [← hu]

/-- Witness for C7 at concrete inputs: a cache miss on the empty filesystem
errors; a hit returns the stored tensor with `requires_grad` off. -/
theorem load_cached_embedding_spec_witness :
    (lookupFile ⟨[], []⟩ (cachePath ⟨["data"], "train", false⟩ 0) = none →
      (load_cached_embedding ⟨["data"], "train", false⟩ 0 ⟨[], []⟩).2
        = Except.error "FileNotFoundError") ∧
    (∀ t, lookupFile ⟨[], []⟩ (cachePath ⟨["data"], "train", false⟩ 0) = some t →
      (load_cached_embedding ⟨["data"], "train", false⟩ 0 ⟨[], []⟩).2
        = Except.ok ⟨t.data, false⟩) ∧
    ∀ u, (load_cached_embedding ⟨["data"], "train", false⟩ 0 ⟨[], []⟩).2
        = Except.ok u → u.requiresGrad = false :=
  load_cached_embedding_spec ⟨["data"], "train", false⟩ 0 ⟨[], []⟩

theorem lookupFile_cons_self (ds : List FsPath) (p : FsPath) (t : STensor)
    (files : List (FsPath × STensor)) :
    lookupFile ⟨ds, (p, t) :: files⟩ p = some t := by
  unfold lookupFile
  rw [List.find?_cons_of_pos]
  · rfl
  · simp

/-- C6: `make_embedding` is idempotent — after a first successful call, a
second call with the same index finds the cached file (existence is checked
before any work), leaves the filesystem (hence the cached file's content)
unchanged, performs no model computation or write (the flag is `false`), and
does not raise. -/
theorem make_embedding_idempotent (c : CacheConfig)
    (extract : Nat → FS → Except String STensor) (index : Nat)
    (fs fs1 : FS) (b : Bool)
    (h : make_embedding c extract index fs = (fs1, Except.ok b)) :
    make_embedding c extract index fs1 = (fs1, Except.ok false) := by
  have hkey : embeddingDir c ∈ fs1.dirs ∧
      (lookupFile fs1 (cachePath c index)).isSome = true := by
    unfold make_embedding at h
    split at h
    · rename_i hcond
      injection h with h1 h2
      rw [← h1]
      exact ⟨mkdirExistOk_mem fs _, hcond⟩
    · rename_i hcond
      cases hext : extract index (cached_embedding_path c index fs).2 with
      | error e =>
          rw [hext] at h
          exact absurd (congrArg Prod.snd h) (by simp)
      | ok embed =>
          rw [hext] at h
          injection h with h1 h2
          rw [← h1]
          refine ⟨mkdirExistOk_mem fs _, ?_⟩
          have : lookupFile
              ⟨(cached_embedding_path c index fs).2.dirs,
                ((cached_embedding_path c index fs).1, embed)
                  :: (cached_embedding_path c index fs).2.files⟩
              (cachePath c index) = some embed :=
            lookupFile_cons_self _ _ _ _
          rw [this]
          rfl
  obtain ⟨hdir, hlook⟩ := hkey
  have hfs1 : cached_embedding_path c index fs1 = (cachePath c index, fs1) := by
    unfold cached_embedding_path
    rw [mkdirExistOk_of_mem hdir]
  unfold make_embedding
  rw [hfs1]
  dsimp only
  rw [if_pos hlook]

/-- Witness for C6 at a concrete input: after a successful first call on the
empty filesystem, the second call returns the filesystem unchanged with the
no-work flag. -/
theorem make_embedding_idempotent_witness :
    make_embedding ⟨["data"], "train", false⟩
        (fun _ _ => Except.ok ⟨[2], false⟩) 0
        ⟨[["data", "fluorescence", "embeddings"]],
         [(["data", "fluorescence", "embeddings", "train_0.pt"], ⟨[2], false⟩)]⟩
      = (⟨[["data", "fluorescence", "embeddings"]],
          [(["data", "fluorescence", "embeddings", "train_0.pt"], ⟨[2], false⟩)]⟩,
         Except.ok false) :=
  make_embedding_idempotent ⟨["data"], "train", false⟩
    (fun _ _ => Except.ok ⟨[2], false⟩) 0 ⟨[], []⟩ _ true (by rfl)

/-- The observable filesystem operations of the embedded code. -/
inductive FsEvent where
  | mkdirExistOkEv : FsPath → FsEvent
  | writeFileEv : FsPath → FsEvent
  | renameEv : FsPath → FsPath → FsEvent
deriving DecidableEq

def FsEvent.isRename : FsEvent → Bool
  | FsEvent.renameEv _ _ => true
  | _ => false

/-- The sequence of filesystem operations `make_embedding` (lines 137-148)
issues: the `mkdir(exist_ok=True)` from `cached_embedding_path`, then, on a
cache miss, the single `torch.save(embed, str(path))` write aimed at the
final cache path itself. -/
def make_embedding_fs_trace (c : CacheConfig) (index : Nat) (fs : FS) :
    List FsEvent :=
  if (lookupFile (cached_embedding_path c index fs).2
      (cached_embedding_path c index fs).1).isSome then
    [FsEvent.mkdirExistOkEv (embeddingDir c)]
  else
    [FsEvent.mkdirExistOkEv (embeddingDir c),
     FsEvent.writeFileEv (cachePath c index)]

/-- C9, the code evaluated at the failing input: on a cache miss (index 0,
empty filesystem) the write trace of `make_embedding` is a mkdir followed by
one write issued directly against the final cache path, and contains no
rename — there is no write-to-temp-then-rename step, so an interruption
during the write can leave a partially written file at the path readers
open. -/
theorem make_embedding_write_not_atomic :
    make_embedding_fs_trace ⟨["data"], "train", false⟩ 0 ⟨[], []⟩
      = [FsEvent.mkdirExistOkEv ["data", "fluorescence", "embeddings"],
         FsEvent.writeFileEv ["data", "fluorescence", "embeddings", "train_0.pt"]] ∧
    (make_embedding_fs_trace ⟨["data"], "train", false⟩ 0 ⟨[], []⟩).all
      (fun e => !e.isRename) = true := by
  decide

/-- A token tensor as produced by `__getitem__`: 1-D (a single encoded
sequence) or 2-D (the query row stacked on the MSA block). -/
inductive Tokens where
  | one : List Int → Tokens
  | two : List (List Int) → Tokens
deriving DecidableEq

/-- The shape of a 1-D token tensor. -/
def Tokens.shape1 : Tokens → Option Nat
  | Tokens.one l => some l.length
  | Tokens.two _ => none

/-- The shape of a 2-D token tensor: `(rows, width)` when the rows are
rectangular (a `torch.cat` along dimension 0 requires this), else none. -/
def Tokens.shape2 : Tokens → Option (Nat × Nat)
  | Tokens.one _ => none
  | Tokens.two rows =>
      if rows.all (fun r => r.length == (rows.headD []).length) then
        some (rows.length, (rows.headD []).length)
      else none

/-- One record of the loaded split: `{"primary": ..., "log_fluorescence": [v]}`. -/
structure ProteinRecord where
  primary : String
  logFluorescence : List Rat
deriving DecidableEq

/-- The `FluorescenceDataset` state that `__getitem__` reads: configuration,
the loaded records, and the MSA state computed at construction. -/
structure FluorescenceDataset where
  dataPath : FsPath
  split : String
  useMsa : Bool
  returnCachedEmbeddings : Bool
  data : List ProteinRecord
  reference : String
  msa : List (List Int)
deriving DecidableEq

def FluorescenceDataset.cacheConfig (d : FluorescenceDataset) : CacheConfig :=
  ⟨d.dataPath, d.split, d.useMsa⟩

/-- The per-example bundle `__getitem__` returns: the token tensor, the
scalar target, and the cached feature tensor when embedding caching is on. -/
structure Item where
  srcTokens : Tokens
  logFluorescence : Rat
  features : Option STensor
deriving DecidableEq

/-- Embeds `FluorescenceDataset.__getitem__` (lines 87-99): align the query
when needed, tokenize, in MSA mode unsqueeze the query row and concatenate
the MSA block below it, attach the scalar target
(`item["log_fluorescence"][0]`), and, when `return_cached_embeddings` is set,
attach the cached feature tensor — a read that fails on a cache miss. -/
def getitem (d : FluorescenceDataset) (aligner : String → String → String)
    (index : Nat) (fs : FS) : FS × Except String Item :=
  if d.returnCachedEmbeddings then
    ((load_cached_embedding d.cacheConfig index fs).1,
      match (load_cached_embedding d.cacheConfig index fs).2 with
      | Except.error e => Except.error e
      | Except.ok t =>
          Except.ok
            ⟨(if d.useMsa then
                Tokens.two
                  (tokenizerEncode
                      (maybe_align_sequence d.useMsa d.reference aligner
                        (d.data.getD index ⟨"", []⟩).primary) :: d.msa)
              else
                Tokens.one
                  (tokenizerEncode
                    (maybe_align_sequence d.useMsa d.reference aligner
                      (d.data.getD index ⟨"", []⟩).primary))),
             (d.data.getD index ⟨"", []⟩).logFluorescence.getD 0 0,
             some t⟩)
  else
    (fs,
      Except.ok
        ⟨(if d.useMsa then
            Tokens.two
              (tokenizerEncode
                  (maybe_align_sequence d.useMsa d.reference aligner
                    (d.data.getD index ⟨"", []⟩).primary) :: d.msa)
          else
            Tokens.one
              (tokenizerEncode
                (maybe_align_sequence d.useMsa d.reference aligner
                  (d.data.getD index ⟨"", []⟩).primary))),
         (d.data.getD index ⟨"", []⟩).logFluorescence.getD 0 0,
         none⟩)

theorem maybe_align_sequence_length_of_contract (reference : String)
    (aligner : String → String → String) (sequence : String)
    (hcontract : ∀ r q : String, (aligner r q).length = r.length) :
    (maybe_align_sequence true reference aligner sequence).length
      = reference.length := by
  unfold maybe_align_sequence
  by_cases h : sequence.length = reference.length
  · simp [h]
  · simp [h, hcontract]

/-- C4: for every valid index, `__getitem__` yields, together with the scalar
target, a token tensor of shape `(1 + num_msa_seqs, seq_len)` when MSA mode
is on (the query row stacked on the MSA block, all of the reference's token
length) and of shape `(seq_len,)` — the query's own token length — when MSA
mode is off. -/
theorem getitem_token_shape (d : FluorescenceDataset)
    (aligner : String → String → String) (index : Nat) (fs : FS) (item : Item)
    (hidx : index < d.data.length)
    (hcontract : ∀ r q : String, (aligner r q).length = r.length)
    (hmsarows : ∀ row ∈ d.msa, row.length = d.reference.length)
    (hok : (getitem d aligner index fs).2 = Except.ok item) :
    (d.useMsa = true →
      item.srcTokens.shape2 = some (1 + d.msa.length, d.reference.length)) ∧
    (d.useMsa = false →
      item.srcTokens.shape1 = some (d.data.getD index ⟨"", []⟩).primary.length) ∧
    item.logFluorescence
      = (d.data.getD index ⟨"", []⟩).logFluorescence.getD 0 0 := by
  have hitem : item.srcTokens
      = (if d.useMsa then
          Tokens.two
            (tokenizerEncode
                (maybe_align_sequence d.useMsa d.reference aligner
                  (d.data.getD index ⟨"", []⟩).primary) :: d.msa)
        else
          Tokens.one
            (tokenizerEncode
              (maybe_align_sequence d.useMsa d.reference aligner
                (d.data.getD index ⟨"", []⟩).primary)))
      ∧ item.logFluorescence
        = (d.data.getD index ⟨"", []⟩).logFluorescence.getD 0 0 := by
    unfold getitem at hok
    split at hok
    · dsimp only at hok
      cases hload : (load_cached_embedding d.cacheConfig index fs).2 with
      | error e => rw [hload] at hok; exact absurd hok (by simp)
      | ok t =>
          rw [hload] at hok
          simp only [Except.ok.injEq] at hok
          rw [← hok]
          exact ⟨rfl, rfl⟩
    · dsimp only at hok
      simp only [Except.ok.injEq] at hok
      rw [← hok]
      exact ⟨rfl, rfl⟩
  obtain ⟨htok, hval⟩ := hitem
  refine ⟨?_, ?_, hval⟩
  · intro hmsa
    rw [htok, hmsa]
    simp only [if_true]
    have hquery : (tokenizerEncode
        (maybe_align_sequence true d.reference aligner
          (d.data.getD index ⟨"", []⟩).primary)).length = d.reference.length := by
      rw [tokenizerEncode_length]
      exact maybe_align_sequence_length_of_contract d.reference aligner _ hcontract
    simp only [Tokens.shape2]
    rw [if_pos]
    · rw [List.headD_cons, hquery, List.length_cons, Nat.add_comm]
    · rw [List.all_eq_true]
      intro r hr
      rw [List.headD_cons, hquery]
      rcases List.mem_cons.mp hr with hr | hr
      · rw [hr, hquery]
        exact beq_self_eq_true _
      · rw [beq_iff_eq]
        exact hmsarows r hr
  · intro hmsa
    rw [htok, hmsa]
    simp only [if_false, Bool.false_eq_true]
    simp only [Tokens.shape1]
    rw [tokenizerEncode_length]
    unfold maybe_align_sequence
    simp

/-- Witness for C4 at a concrete input: MSA on, one context row, reference
"AB", query "AB". -/
theorem getitem_token_shape_witness :
    ((⟨["data"], "train", true, false, [⟨"AB", [1]⟩], "AB", [[7, 8]]⟩ :
        FluorescenceDataset).useMsa = true →
      (⟨Tokens.two [[65, 66], [7, 8]], 1, none⟩ : Item).srcTokens.shape2
        = some (1 + (⟨["data"], "train", true, false, [⟨"AB", [1]⟩], "AB",
            [[7, 8]]⟩ : FluorescenceDataset).msa.length,
          (⟨["data"], "train", true, false, [⟨"AB", [1]⟩], "AB", [[7, 8]]⟩ :
            FluorescenceDataset).reference.length)) ∧
    ((⟨["data"], "train", true, false, [⟨"AB", [1]⟩], "AB", [[7, 8]]⟩ :
        FluorescenceDataset).useMsa = false →
      (⟨Tokens.two [[65, 66], [7, 8]], 1, none⟩ : Item).srcTokens.shape1
        = some ((⟨["data"], "train", true, false, [⟨"AB", [1]⟩], "AB",
            [[7, 8]]⟩ : FluorescenceDataset).data.getD 0
              ⟨"", []⟩).primary.length) ∧
    (⟨Tokens.two [[65, 66], [7, 8]], 1, none⟩ : Item).logFluorescence
      = ((⟨["data"], "train", true, false, [⟨"AB", [1]⟩], "AB", [[7, 8]]⟩ :
          FluorescenceDataset).data.getD 0 ⟨"", []⟩).logFluorescence.getD 0 0 :=
  getitem_token_shape
    ⟨["data"], "train", true, false, [⟨"AB", [1]⟩], "AB", [[7, 8]]⟩
    (fun r _ => r) 0 ⟨[], []⟩ ⟨Tokens.two [[65, 66], [7, 8]], 1, none⟩
    (by decide) (fun _ _ => rfl) (by decide) (by rfl)

/-- Modelled from the spec: `seqlen_mask` from `tape.utils` (not under
`src/`). Spec §4.5 step 3: a boolean mask of valid positions sized to
`feat_len`, position `p` of example `i` valid iff `p < effective_length i`. -/
def seqlen_mask (featLen : Nat) (lengths : List Int) : List (List Bool) :=
  lengths.map (fun len => (List.range featLen).map (fun p => decide (Int.ofNat p < len)))

/-- Embeds the mask stage of `FluorescencePredictor.forward` (lines 236-239):
effective lengths `src_lengths - (src_tokens.size(1) - features.size(1))`,
the `seqlen_mask` over them, and
`attention_weights.masked_fill(~mask.unsqueeze(2), -10000)` applied to each
example's score row.  The computation is total: no branch of `forward` clamps
the effective length or rejects a degenerate example. -/
def forward_masked_scores (scores : List (List Rat)) (srcLengths : List Int)
    (tokenLen featLen : Nat) : List (List Rat) :=
  List.zipWith
    (fun row mrow => List.zipWith (fun s m => if m then s else -10000) row mrow)
    scores
    (seqlen_mask featLen
      (srcLengths.map (fun l => l - ((tokenLen : Int) - (featLen : Int)))))

theorem range_map_decide_lt_nonpos (n : Nat) (e : Int) (he : e ≤ 0) :
    (List.range n).map (fun p => decide (Int.ofNat p < e))
      = List.replicate n false := by
  rw [List.eq_replicate_iff]
  constructor
  · simp
  · intro b hb
    rcases List.mem_map.mp hb with ⟨p, hp, hbe⟩
    rw [← hbe]
    simp only [decide_eq_false_iff_not, not_lt]
    have h0 : (0 : Int) ≤ Int.ofNat p := Int.ofNat_nonneg p
    omega

theorem zipWith_mask_all_false {α : Type} (neg : α) (srow : List α) (n : Nat)
    (hlen : srow.length = n) :
    List.zipWith (fun s m => if m then s else neg) srow (List.replicate n false)
      = List.replicate srow.length neg := by
  subst hlen
  induction srow with
  | nil => rfl
  | cons a t ih => simp [List.replicate_succ, ih]

/-- C8 (amended): the code performs NO clamping and NO rejection — for every
example whose effective length (`src_lengths` minus the difference between
token length and feature length) is non-positive, the seqlen mask marks no
position valid and the masked fill silently replaces the example's entire
score row by the large negative constant −10000, so the subsequent softmax
runs over exclusively masked positions. -/
theorem forward_mask_degenerate (scores : List (List Rat))
    (srcLengths : List Int) (tokenLen featLen : Nat) (i : Nat)
    (hi : i < srcLengths.length)
    (hrow : i < scores.length)
    (hlen : (scores.getD i []).length = featLen)
    (hdeg : srcLengths.getD i 0 - ((tokenLen : Int) - (featLen : Int)) ≤ 0) :
    (seqlen_mask featLen
        (srcLengths.map (fun l => l - ((tokenLen : Int) - (featLen : Int))))).getD i []
      = List.replicate featLen false ∧
    (forward_masked_scores scores srcLengths tokenLen featLen).getD i []
      = List.replicate featLen (-10000) := by
  have hi2 : i < (srcLengths.map
      (fun l => l - ((tokenLen : Int) - (featLen : Int)))).length := by simpa
  have hmaskrow : (seqlen_mask featLen
      (srcLengths.map (fun l => l - ((tokenLen : Int) - (featLen : Int))))).getD i []
      = List.replicate featLen false := by
    unfold seqlen_mask
    rw [getD_map_of_lt _ _ i hi2 [] 0,
      getD_map_of_lt (fun l => l - ((tokenLen : Int) - (featLen : Int)))
        srcLengths i hi 0 0]
    exact range_map_decide_lt_nonpos featLen _ hdeg
  refine ⟨hmaskrow, ?_⟩
  have hi3 : i < (seqlen_mask featLen
      (srcLengths.map (fun l => l - ((tokenLen : Int) - (featLen : Int))))).length := by
    unfold seqlen_mask
    simpa
  have hi4 : i < (forward_masked_scores scores srcLengths tokenLen featLen).length := by
    unfold forward_masked_scores
    rw [List.length_zipWith]
    omega
  unfold forward_masked_scores at hi4 ⊢
  rw [List.getD_eq_getElem _ _ hi4, List.getElem_zipWith,
    ← List.getD_eq_getElem scores [] hrow, ← List.getD_eq_getElem _ [] hi3,
    hmaskrow, zipWith_mask_all_false (-10000) (scores.getD i []) featLen hlen,
    hlen]

/-- Counterexample to C8 as stated: a concrete example with effective length
`0 - (3 - 3) = 0 ≤ 0` is neither clamped (no position is left valid: the mask
row is all-false) nor rejected — the filled score row is produced anyway,
every position holding −10000, so attention weights are computed over only
masked positions. -/
theorem forward_mask_degenerate_counterexample :
    seqlen_mask 3 ([(0 : Int)].map (fun l => l - ((3 : Int) - (3 : Int))))
      = [[false, false, false]] ∧
    forward_masked_scores [[1, 2, 3]] [0] 3 3
      = [[-10000, -10000, -10000]] := by
  refine ⟨by decide, ?_⟩
  show List.zipWith _ [[(1 : Rat), 2, 3]] _ = _
  rfl

/-- Witness for the amended C8 at a concrete input: one example of feature
length 1 with `src_lengths = [-1]`. -/
theorem forward_mask_degenerate_witness :
    (seqlen_mask 1
        ([(-1 : Int)].map (fun l => l - ((1 : Int) - (1 : Int))))).getD 0 []
      = List.replicate 1 false ∧
    (forward_masked_scores [[5]] [-1] 1 1).getD 0 []
      = List.replicate 1 (-10000) :=
  forward_mask_degenerate [[5]] [-1] 1 1 0 (by decide) (by decide) (by decide)
    (by decide)

end TapeFluorescence
